/-
Verification of the EMC2101 fan-controller driver (src/emc2101_conf.py).

The driver is shallowly embedded.  The chip's register file is a function
from register address to stored byte; every bus transaction the driver
issues is recorded as a BusEvent; each driver operation becomes a pure
function from a register state to a result, a successor state and the
trace of transactions it issued, in issue order.
-/
import Mathlib

/-- One transaction on the two-wire bus: a single-byte read or write of
register address regAddr on the device at bus address devAddr.  For a
read, data is the byte returned; for a write, the byte sent. -/
structure BusEvent where
  isWrite : Bool
  devAddr : Nat
  regAddr : Nat
  data : Nat
deriving DecidableEq

/-- The chip's register file: register address to stored byte value. -/
abbrev Regs := Nat → Nat

namespace Emc2101

/-- Source line 98: I2CADDRESS = 0x4C, the fixed 7-bit device address. -/
def I2CADDRESS : Nat := 0x4C

/-- Source line 12: MAX_LUT_SPEED = 0x3F (6-bit field). -/
def MAX_LUT_SPEED : Nat := 0x3F

/-- Source line 13: MAX_LUT_TEMP = 0x7F (7-bit field). -/
def MAX_LUT_TEMP : Nat := 0x7F

/-- Source line 54: INTERNAL_TEMP = 0x00. -/
def INTERNAL_TEMP : Nat := 0x00

/-- Source line 58: REG_CONFIG = 0x03. -/
def REG_CONFIG : Nat := 0x03

/-- Source line 38: CONFIG_DAC = 0x10. -/
def CONFIG_DAC : Nat := 0x10

/-- Source line 45: TEMP_FAULT_OPENCIRCUIT = 0x3F8. -/
def TEMP_FAULT_OPENCIRCUIT : Nat := 0x3F8

/-- Source line 46: TEMP_FAULT_SHORT = 0x3FF. -/
def TEMP_FAULT_SHORT : Nat := 0x3FF

/-- Python range(start, stop, step) for a positive step, as the list of
its elements in order: start, start+step, ... while below stop. -/
def pythonRange (start stop step : Nat) : List Nat :=
  (List.range ((stop - start + step - 1) / step)).map (fun i => start + step * i)

/-- Source line 91: REG_LOOKUP_T = range(0x50, 0x5F, 2), the 8 LUT
temperature registers 0x50, 0x52, ..., 0x5E. -/
def REG_LOOKUP_T : List Nat := pythonRange 0x50 0x5F 2

/-- Source line 92: REG_LOOKUP_S = range(0x51, 0x5F + 1, 2), the 8 LUT
speed registers 0x51, 0x53, ..., 0x5F. -/
def REG_LOOKUP_S : List Nat := pythonRange 0x51 (0x5F + 1) 2

/-- A read transaction issued to the fixed device address. -/
def readEvent (reg data : Nat) : BusEvent :=
  { isWrite := false, devAddr := I2CADDRESS, regAddr := reg, data := data }

/-- A write transaction issued to the fixed device address. -/
def writeEvent (reg data : Nat) : BusEvent :=
  { isWrite := true, devAddr := I2CADDRESS, regAddr := reg, data := data }

/-- Source lines 103-104: _read returns
BUS.read_byte_data(I2CADDRESS, register_address); the state is unchanged
and one read transaction is issued. -/
def _read (regs : Regs) (register_address : Nat) : Nat × List BusEvent :=
  (regs register_address, [readEvent register_address (regs register_address)])

/-- Source lines 106-107: _write performs
BUS.write_byte_data(I2CADDRESS, register_address, data_byte): the
addressed register takes the new byte and one write transaction is
issued. -/
def _write (regs : Regs) (register_address data_byte : Nat) : Regs × List BusEvent :=
  (fun a => if a = register_address then data_byte else regs a,
   [writeEvent register_address data_byte])

/-- Python reg & ~mask on nonnegative ints clears in reg every bit that
is set in mask; on Nat this is reg XOR (reg AND mask) (each bit of
reg AND mask is also a bit of reg, so the XOR removes exactly those). -/
def pyAndNot (reg mask : Nat) : Nat := reg ^^^ (reg &&& mask)

/-- Source lines 109-114: _writeBool reads the register, then writes back
reg | registermask when value is truthy and reg & ~registermask
otherwise. -/
def _writeBool (regs : Regs) (register_address registermask : Nat) (value : Bool) :
    Regs × List BusEvent :=
  let r := _read regs register_address
  if value then
    let w := _write regs register_address (r.1 ||| registermask)
    (w.1, r.2 ++ w.2)
  else
    let w := _write regs register_address (pyAndNot r.1 registermask)
    (w.1, r.2 ++ w.2)

/-- Source lines 119-121: the internalTemp property returns
int(_read(INTERNAL_TEMP)); int() on a nonnegative int is the identity. -/
def internalTemp (regs : Regs) : Nat × List BusEvent :=
  _read regs INTERNAL_TEMP

/-- Source lines 123-125: the dacMode getter returns
bool(_read(REG_CONFIG) & CONFIG_DAC), i.e. whether the masked value is
nonzero. -/
def dacMode (regs : Regs) : Bool × List BusEvent :=
  let r := _read regs REG_CONFIG
  ((r.1 &&& CONFIG_DAC) != 0, r.2)

/-- Source lines 127-129: the dacMode setter calls
_writeBool(REG_CONFIG, CONFIG_DAC, bool(value)). -/
def setDacMode (regs : Regs) (value : Bool) : Regs × List BusEvent :=
  _writeBool regs REG_CONFIG CONFIG_DAC value

/-- Source lines 131-133: the fanControlLookupTable getter returns
[(_read(REG_LOOKUP_T[i]), _read(REG_LOOKUP_T[i])) for i in range(8)].
As written, BOTH components of each pair read the temperature register
REG_LOOKUP_T[i]; REG_LOOKUP_S is never read.  Indices 0..7 are always in
range for the 8-element register lists, so getD never takes its
default. -/
def fanControlLookupTable (regs : Regs) : List (Nat × Nat) × List BusEvent :=
  ((List.range 8).map (fun i =>
     (regs (REG_LOOKUP_T.getD i 0), regs (REG_LOOKUP_T.getD i 0))),
   (List.range 8).flatMap (fun i =>
     [readEvent (REG_LOOKUP_T.getD i 0) (regs (REG_LOOKUP_T.getD i 0)),
      readEvent (REG_LOOKUP_T.getD i 0) (regs (REG_LOOKUP_T.getD i 0))]))

/-- Source lines 135-140, the loop body of the fanControlLookupTable
setter, iterating over the index list is = range(len(value)).  Per
iteration i it evaluates value[i], then REG_LOOKUP_T[i], writes the
temperature, then REG_LOOKUP_S[i], writes the speed.  An out-of-range
subscript raises IndexError, which aborts the loop keeping the writes
already issued: the Bool of the result records whether IndexError was
raised, next to the final register state and the write trace. -/
def setLUTLoop (value : List (Nat × Nat)) (regs : Regs) : List Nat → Regs × List BusEvent × Bool
  | [] => (regs, [], false)
  | i :: rest =>
    match value[i]? with
    | none => (regs, [], true)
    | some xy =>
      match REG_LOOKUP_T[i]? with
      | none => (regs, [], true)
      | some tAddr =>
        let w1 := _write regs tAddr xy.1
        match REG_LOOKUP_S[i]? with
        | none => (w1.1, w1.2, true)
        | some sAddr =>
          let w2 := _write w1.1 sAddr xy.2
          let r := setLUTLoop value w2.1 rest
          (r.1, w1.2 ++ w2.2 ++ r.2.1, r.2.2)

/-- Source lines 135-140: the fanControlLookupTable setter runs the loop
for i in range(len(value)). -/
def setFanControlLookupTable (regs : Regs) (value : List (Nat × Nat)) :
    Regs × List BusEvent × Bool :=
  setLUTLoop value regs (List.range value.length)

/-- Decoded result of an external-temperature read: either a fault
sentinel or a numeric reading (carried as the raw composite value, which
the chip's fixed-point scale converts injectively). -/
inductive ExternalTempReading where
  | openCircuitFault : ExternalTempReading
  | shortCircuitFault : ExternalTempReading
  | temperature : Nat → ExternalTempReading
deriving DecidableEq

/-- Modelled from the spec: the external-temperature read with fault
decoding (spec 4.2.1) is not implemented in the source file, which only
declares the sentinel constants TEMP_FAULT_OPENCIRCUIT (0x3F8, line 45)
and TEMP_FAULT_SHORT (0x3FF, line 46) and the register addresses.  Per
the spec, a raw composite equal to 0x3F8 reports an open-circuit fault,
0x3FF a short-circuit fault, and any other value is a valid numeric
reading. -/
def decodeExternalTemp (raw : Nat) : ExternalTempReading :=
  if raw = TEMP_FAULT_OPENCIRCUIT then ExternalTempReading.openCircuitFault
  else if raw = TEMP_FAULT_SHORT then ExternalTempReading.shortCircuitFault
  else ExternalTempReading.temperature raw

/-- Example register file with every register zero. -/
def regsZero : Regs := fun _ => 0

/-- Example register file whose configuration byte is 0x03 (DAC bit
clear, two low flags set). -/
def regsCfg3 : Regs := fun a => if a = REG_CONFIG then 0x03 else 0

/-- Example register file whose configuration byte is 0x10 (DAC bit
already set). -/
def regsDacSet : Regs := fun a => if a = REG_CONFIG then 0x10 else 0

/-- Bitwise characterisation of pyAndNot: bit i of reg AND-NOT mask. -/
theorem pyAndNot_testBit (reg mask i : Nat) :
    (pyAndNot reg mask).testBit i = ((reg.testBit i) && !(mask.testBit i)) := by
  simp only [pyAndNot, Nat.testBit_xor, Nat.testBit_land]
  cases reg.testBit i <;> cases mask.testBit i <;> rfl

/-- pyAndNot agrees with the mathematical bitwise set difference, i.e.
with Python reg AND NOT mask on nonnegative ints. -/
theorem pyAndNot_eq_ldiff (reg mask : Nat) : pyAndNot reg mask = Nat.ldiff reg mask :=
  Nat.eq_of_testBit_eq fun i => by rw [pyAndNot_testBit, Nat.testBit_ldiff]

/-- Pointwise description of the register file after _writeBool. -/
theorem _writeBool_apply (regs : Regs) (addr mask : Nat) (v : Bool) (a : Nat) :
    (_writeBool regs addr mask v).1 a =
      if a = addr then (if v then regs addr ||| mask else pyAndNot (regs addr) mask)
      else regs a := by
  cases v <;> simp [_writeBool, _read, _write]

/-- Claim C7: the internalTemp getter performs exactly one register
read, of register address 0x00, and returns the byte read with no
transformation of its value. -/
theorem internalTemp_spec (regs : Regs) :
    (internalTemp regs).1 = regs 0x00 ∧
    (internalTemp regs).2 = [readEvent 0x00 (regs 0x00)] :=
  ⟨rfl, rfl⟩

/-- Claim C6: for every in-range raw 11-bit composite value, the decoded
external-temperature result is the open-circuit fault exactly for raw =
0x3F8, the short-circuit fault exactly for raw = 0x3FF, and whenever a
numeric temperature is returned its raw value is neither sentinel, so a
caller never receives 0x3F8 or 0x3FF as a numeric temperature. -/
theorem externalTemp_fault_decoding (raw : Nat) (h : raw < 0x800) :
    (decodeExternalTemp raw = ExternalTempReading.openCircuitFault ↔ raw = 0x3F8) ∧
    (decodeExternalTemp raw = ExternalTempReading.shortCircuitFault ↔ raw = 0x3FF) ∧
    (∀ t, decodeExternalTemp raw = ExternalTempReading.temperature t →
      t ≠ 0x3F8 ∧ t ≠ 0x3FF) := by
  unfold decodeExternalTemp TEMP_FAULT_OPENCIRCUIT TEMP_FAULT_SHORT
  by_cases h1 : raw = 0x3F8 <;> by_cases h2 : raw = 0x3FF <;> simp_all

/-- Witness for externalTemp_fault_decoding at the concrete in-range raw
value 100. -/
theorem externalTemp_fault_decoding_witness :
    decodeExternalTemp 100 = ExternalTempReading.openCircuitFault ↔ (100 : Nat) = 0x3F8 :=
  (externalTemp_fault_decoding 100 (by decide)).1

/-- Claim C2 (amended): setting flag mask to true and then to false at
addr always yields the original byte with the mask bits cleared, hence
restores the byte to its original value exactly when the mask bits were
initially clear in it; and, unconditionally, each individual _writeBool
call leaves every bit outside mask unchanged and leaves every other
register untouched. -/
theorem config_flag_roundtrip (regs : Regs) (addr mask : Nat) :
    (_writeBool (_writeBool regs addr mask true).1 addr mask false).1 addr
      = pyAndNot (regs addr) mask ∧
    (regs addr &&& mask = 0 →
      (_writeBool (_writeBool regs addr mask true).1 addr mask false).1 addr = regs addr) ∧
    (∀ i, mask.testBit i = false →
      ((_writeBool regs addr mask true).1 addr).testBit i = (regs addr).testBit i ∧
      ((_writeBool regs addr mask false).1 addr).testBit i = (regs addr).testBit i) ∧
    (∀ v : Bool, ∀ a, a ≠ addr → (_writeBool regs addr mask v).1 a = regs a) := by
  have h1 : (_writeBool regs addr mask true).1 addr = regs addr ||| mask := by
    simp [_writeBool_apply]
  have h2 : (_writeBool (_writeBool regs addr mask true).1 addr mask false).1 addr
      = pyAndNot ((_writeBool regs addr mask true).1 addr) mask := by
    simp [_writeBool_apply]
  have hgen : (_writeBool (_writeBool regs addr mask true).1 addr mask false).1 addr
      = pyAndNot (regs addr) mask := by
    rw [h2, h1]
    apply Nat.eq_of_testBit_eq
    intro i
    rw [pyAndNot_testBit, pyAndNot_testBit, Nat.testBit_lor]
    cases hp : (regs addr).testBit i <;> cases hq : mask.testBit i <;> rfl
  refine ⟨hgen, ?_, ?_, ?_⟩
  · intro h
    rw [hgen]
    apply Nat.eq_of_testBit_eq
    intro i
    have hbm : ((regs addr).testBit i && mask.testBit i) = false := by
      rw [← Nat.testBit_land, h]
      exact Nat.zero_testBit i
    rw [pyAndNot_testBit]
    cases hp : (regs addr).testBit i <;> cases hq : mask.testBit i <;> simp_all
  · intro i hi
    constructor
    · rw [_writeBool_apply, if_pos rfl, if_pos rfl, Nat.testBit_lor, hi, Bool.or_false]
    · rw [_writeBool_apply, if_pos rfl, if_neg (by simp), pyAndNot_testBit, hi]
      simp
  · intro v a ha
    rw [_writeBool_apply, if_neg ha]

/-- Witness for config_flag_roundtrip: with configuration byte 0x03 (DAC
bit clear) the enable/disable round trip on CONFIG_DAC restores 0x03. -/
theorem config_flag_roundtrip_witness :
    (_writeBool (_writeBool regsCfg3 REG_CONFIG CONFIG_DAC true).1
      REG_CONFIG CONFIG_DAC false).1 REG_CONFIG = regsCfg3 REG_CONFIG :=
  (config_flag_roundtrip regsCfg3 REG_CONFIG CONFIG_DAC).2.1 (by decide)

/-- Claim C2, counterexample to the claim as stated: with configuration
byte 0x10 (the DAC flag already set), _writeBool true then _writeBool
false on mask CONFIG_DAC yields byte 0x00 at REG_CONFIG, not the
original 0x10, so the round trip does not restore every initial byte. -/
theorem config_flag_roundtrip_counterexample :
    (_writeBool (_writeBool regsDacSet REG_CONFIG CONFIG_DAC true).1
      REG_CONFIG CONFIG_DAC false).1 REG_CONFIG ≠ regsDacSet REG_CONFIG := by
  decide

/-- The dacMode getter Bool equals testBit 4 of the configuration byte
(CONFIG_DAC = 0x10 = 2 to the 4th). -/
theorem dacMode_getter_testBit (regs : Regs) :
    (dacMode regs).1 = (regs REG_CONFIG).testBit 4 := by
  have h16 : (CONFIG_DAC : Nat) = 2 ^ 4 := by norm_num [CONFIG_DAC]
  simp only [dacMode, _read, h16, Nat.and_two_pow]
  cases hb : (regs REG_CONFIG).testBit 4 <;> simp [hb]

/-- Claim C3: the dacMode getter returns true exactly when bit 0x10
(testBit 4) of the configuration register at address REG_CONFIG = 0x03
is set; the setter makes that bit equal to its Bool argument while
leaving every other bit of the configuration byte and every other
register at its pre-call value. -/
theorem dacMode_spec (regs : Regs) (v : Bool) :
    ((dacMode regs).1 = true ↔ (regs REG_CONFIG).testBit 4 = true) ∧
    ((setDacMode regs v).1 REG_CONFIG).testBit 4 = v ∧
    (∀ i, i ≠ 4 → ((setDacMode regs v).1 REG_CONFIG).testBit i = (regs REG_CONFIG).testBit i) ∧
    (∀ a, a ≠ REG_CONFIG → (setDacMode regs v).1 a = regs a) := by
  have h16 : (CONFIG_DAC : Nat) = 2 ^ 4 := by norm_num [CONFIG_DAC]
  refine ⟨by rw [dacMode_getter_testBit], ?_, ?_, ?_⟩
  · rw [setDacMode, _writeBool_apply, if_pos rfl]
    cases v
    · rw [if_neg (by simp), pyAndNot_testBit, h16, Nat.testBit_two_pow]
      simp
    · rw [if_pos rfl, Nat.testBit_lor, h16, Nat.testBit_two_pow]
      simp
  · intro i hi
    rw [setDacMode, _writeBool_apply, if_pos rfl]
    have hbit : (CONFIG_DAC : Nat).testBit i = false := by
      rw [h16, Nat.testBit_two_pow]
      simpa using fun he => hi he.symm
    cases v
    · rw [if_neg (by simp), pyAndNot_testBit, hbit]
      simp
    · rw [if_pos rfl, Nat.testBit_lor, hbit, Bool.or_false]
  · intro a ha
    rw [setDacMode, _writeBool_apply, if_neg ha]

/-- Witness for dacMode_spec: enabling DAC mode on configuration byte
0x03 leaves bit 0 of the byte unchanged. -/
theorem dacMode_spec_witness :
    ((setDacMode regsCfg3 true).1 REG_CONFIG).testBit 0 = (regsCfg3 REG_CONFIG).testBit 0 :=
  (dacMode_spec regsCfg3 true).2.2.1 0 (by decide)

/-- Claim C1, code-bug evaluation: on an all-zero register file, writing
the pair (20, 10) to LUT slot 0 via the setter stores 20 at register
0x50 and 10 at register 0x51, yet reading the table back via the getter
yields (20, 20) at index 0 rather than (20, 10): the getter (source line
133) reads REG_LOOKUP_T[i] for both components of each pair, so the
stored speed byte is never returned. -/
theorem lut_slot_roundtrip_bug :
    (setFanControlLookupTable regsZero [(20, 10)]).2.2 = false ∧
    (setFanControlLookupTable regsZero [(20, 10)]).1 0x50 = 20 ∧
    (setFanControlLookupTable regsZero [(20, 10)]).1 0x51 = 10 ∧
    (fanControlLookupTable (setFanControlLookupTable regsZero [(20, 10)]).1).1.get? 0
      = some (20, 20) := by
  decide

/-- REG_LOOKUP_T subscripting: index i < 8 yields register 0x50 + 2i. -/
theorem REG_LOOKUP_T_get? (i : Nat) (h : i < 8) :
    REG_LOOKUP_T[i]? = some (0x50 + 2 * i) := by
  interval_cases i <;> decide

/-- REG_LOOKUP_S subscripting: index i < 8 yields register 0x51 + 2i. -/
theorem REG_LOOKUP_S_get? (i : Nat) (h : i < 8) :
    REG_LOOKUP_S[i]? = some (0x51 + 2 * i) := by
  interval_cases i <;> decide

/-- The temperature register list has exactly 8 entries. -/
theorem REG_LOOKUP_T_length : REG_LOOKUP_T.length = 8 := by decide

/-- Inversion for REG_LOOKUP_T subscripting. -/
theorem REG_LOOKUP_T_get?_inv {i t : Nat} (h : REG_LOOKUP_T[i]? = some t) :
    i < 8 ∧ t = 0x50 + 2 * i := by
  have hi : i < 8 := by
    by_contra hge
    rw [List.getElem?_eq_none (by rw [REG_LOOKUP_T_length]; omega)] at h
    exact Option.noConfusion h
  rw [REG_LOOKUP_T_get? i hi] at h
  exact ⟨hi, (Option.some.inj h).symm⟩

/-- The speed register list has exactly 8 entries. -/
theorem REG_LOOKUP_S_length : REG_LOOKUP_S.length = 8 := by decide

/-- Inversion for REG_LOOKUP_S subscripting. -/
theorem REG_LOOKUP_S_get?_inv {i s : Nat} (h : REG_LOOKUP_S[i]? = some s) :
    i < 8 ∧ s = 0x51 + 2 * i := by
  have hi : i < 8 := by
    by_contra hge
    rw [List.getElem?_eq_none (by rw [REG_LOOKUP_S_length]; omega)] at h
    exact Option.noConfusion h
  rw [REG_LOOKUP_S_get? i hi] at h
  exact ⟨hi, (Option.some.inj h).symm⟩

/-- An in-bounds subscript returns the getD value. -/
theorem get?_eq_some_getD {α : Type} (l : List α) (i : Nat) (d : α) (h : i < l.length) :
    l[i]? = some (l.getD i d) := by
  simp [List.getD_eq_getElem?_getD, List.getElem?_eq_getElem h]

/-- Proof helper: the register file after writing pair p to slot i
(temperature at 0x50 + 2i, then speed at 0x51 + 2i). -/
def writePair (regs : Regs) (i : Nat) (p : Nat × Nat) : Regs := fun a =>
  if a = 0x51 + 2 * i then p.2 else if a = 0x50 + 2 * i then p.1 else regs a

/-- One successful iteration of the setter loop at an in-range index. -/
theorem setLUTLoop_cons_ok (value : List (Nat × Nat)) (regs : Regs) (i : Nat)
    (rest : List Nat) (hi : i < 8) (hv : i < value.length) :
    setLUTLoop value regs (i :: rest) =
      ((setLUTLoop value (writePair regs i (value.getD i (0, 0))) rest).1,
       writeEvent (0x50 + 2 * i) (value.getD i (0, 0)).1 ::
         writeEvent (0x51 + 2 * i) (value.getD i (0, 0)).2 ::
         (setLUTLoop value (writePair regs i (value.getD i (0, 0))) rest).2.1,
       (setLUTLoop value (writePair regs i (value.getD i (0, 0))) rest).2.2) := by
  simp only [setLUTLoop, get?_eq_some_getD value i (0, 0) hv,
    REG_LOOKUP_T_get? i hi, REG_LOOKUP_S_get? i hi, _write, writePair]
  rfl

/-- Over an in-range block of indices the setter loop raises no error
and issues exactly the interleaved temperature/speed writes in index
order. -/
theorem setLUTLoop_ok (value : List (Nat × Nat)) (k n : Nat) (regs : Regs)
    (hlen : k + n ≤ value.length) (h8 : k + n ≤ 8) :
    (setLUTLoop value regs (List.range' k n)).2.1 =
      (List.range' k n).flatMap (fun i =>
        [writeEvent (0x50 + 2 * i) (value.getD i (0, 0)).1,
         writeEvent (0x51 + 2 * i) (value.getD i (0, 0)).2]) ∧
    (setLUTLoop value regs (List.range' k n)).2.2 = false := by
  induction n generalizing k regs with
  | zero => exact ⟨rfl, rfl⟩
  | succ m ih =>
    rw [List.range'_succ, setLUTLoop_cons_ok value regs k _ (by omega) (by omega)]
    have hih := ih (k + 1) (writePair regs k (value.getD k (0, 0))) (by omega) (by omega)
    exact ⟨by rw [List.flatMap_cons, hih.1]; rfl, hih.2⟩

/-- The setter loop does not modify a register whose address is no
slot's temperature or speed register for any index of the loop. -/
theorem setLUTLoop_frame (value : List (Nat × Nat)) (is : List Nat) (regs : Regs) (a : Nat)
    (h : ∀ i ∈ is, a ≠ 0x50 + 2 * i ∧ a ≠ 0x51 + 2 * i) :
    (setLUTLoop value regs is).1 a = regs a := by
  induction is generalizing regs with
  | nil => rfl
  | cons i rest ih =>
    have hi := h i (List.mem_cons_self i rest)
    have hrest : ∀ j ∈ rest, a ≠ 0x50 + 2 * j ∧ a ≠ 0x51 + 2 * j :=
      fun j hj => h j (List.mem_cons_of_mem i hj)
    cases hv : value[i]? with
    | none => simp [setLUTLoop, hv]
    | some p =>
      cases ht : REG_LOOKUP_T[i]? with
      | none => simp [setLUTLoop, hv, ht]
      | some tA =>
        have h1 := REG_LOOKUP_T_get?_inv ht
        cases hs : REG_LOOKUP_S[i]? with
        | none =>
          rw [REG_LOOKUP_S_get? i h1.1] at hs
          exact Option.noConfusion hs
        | some sA =>
          have h2 := REG_LOOKUP_S_get?_inv hs
          simp only [setLUTLoop, hv, ht, hs, _write]
          rw [ih _ hrest]
          rw [if_neg (h2.2 ▸ hi.2), if_neg (h1.2 ▸ hi.1)]

/-- After a successful block of iterations, each processed slot's
registers hold that slot's pair. -/
theorem setLUTLoop_written (value : List (Nat × Nat)) (k n : Nat) (regs : Regs)
    (hlen : k + n ≤ value.length) (h8 : k + n ≤ 8)
    (i : Nat) (hk : k ≤ i) (hn : i < k + n) :
    (setLUTLoop value regs (List.range' k n)).1 (0x50 + 2 * i) = (value.getD i (0, 0)).1 ∧
    (setLUTLoop value regs (List.range' k n)).1 (0x51 + 2 * i) = (value.getD i (0, 0)).2 := by
  induction n generalizing k regs with
  | zero => omega
  | succ m ih =>
    rw [List.range'_succ, setLUTLoop_cons_ok value regs k _ (by omega) (by omega)]
    by_cases hik : i = k
    · subst hik
      constructor
      · rw [setLUTLoop_frame value _ _ _ (by
          intro j hj
          rw [List.mem_range'_1] at hj
          omega)]
        simp [writePair]
      · rw [setLUTLoop_frame value _ _ _ (by
          intro j hj
          rw [List.mem_range'_1] at hj
          omega)]
        simp [writePair]
    · exact ih (k + 1) _ (by omega) (by omega) (by omega) (by omega)

/-- Splitting the setter loop: if the first block of indices raises no
error, the loop over the concatenation runs the first block and
continues with the second from the state the first produced. -/
theorem setLUTLoop_append (value : List (Nat × Nat)) (is js : List Nat) (regs : Regs)
    (h : (setLUTLoop value regs is).2.2 = false) :
    setLUTLoop value regs (is ++ js) =
      ((setLUTLoop value (setLUTLoop value regs is).1 js).1,
       (setLUTLoop value regs is).2.1 ++
         (setLUTLoop value (setLUTLoop value regs is).1 js).2.1,
       (setLUTLoop value (setLUTLoop value regs is).1 js).2.2) := by
  induction is generalizing regs with
  | nil => simp [setLUTLoop]
  | cons i rest ih =>
    cases hv : value[i]? with
    | none => simp [setLUTLoop, hv] at h
    | some p =>
      cases ht : REG_LOOKUP_T[i]? with
      | none => simp [setLUTLoop, hv, ht] at h
      | some tA =>
        cases hs : REG_LOOKUP_S[i]? with
        | none => simp [setLUTLoop, hv, ht, hs] at h
        | some sA =>
          have h2 : (setLUTLoop value ((_write ((_write regs tA p.1).1) sA p.2).1)
              rest).2.2 = false := by
            simpa [setLUTLoop, hv, ht, hs] using h
          rw [List.cons_append]
          simp only [setLUTLoop, hv, ht, hs]
          rw [ih _ h2]
          simp [List.append_assoc]

/-- Claim C4: for a supplied sequence of at most 8 pairs the setter
raises no error and its bus trace is exactly, in index order, a write of
pair i's temperature component to register 0x50 + 2i followed by a
write of pair i's speed component to register 0x51 + 2i. -/
theorem setLUT_write_addresses (regs : Regs) (value : List (Nat × Nat))
    (h : value.length ≤ 8) :
    (setFanControlLookupTable regs value).2.1 =
      (List.range value.length).flatMap (fun i =>
        [writeEvent (0x50 + 2 * i) (value.getD i (0, 0)).1,
         writeEvent (0x51 + 2 * i) (value.getD i (0, 0)).2]) ∧
    (setFanControlLookupTable regs value).2.2 = false := by
  rw [setFanControlLookupTable, List.range_eq_range']
  exact setLUTLoop_ok value 0 value.length regs (by omega) (by omega)

/-- Witness for setLUT_write_addresses with the two pairs (1, 2) and
(3, 4): writes go to 0x50, 0x51, 0x52, 0x53 in order, no error. -/
theorem setLUT_write_addresses_witness :
    (setFanControlLookupTable regsZero [(1, 2), (3, 4)]).2.1 =
      [writeEvent 0x50 1, writeEvent 0x51 2, writeEvent 0x52 3, writeEvent 0x53 4] ∧
    (setFanControlLookupTable regsZero [(1, 2), (3, 4)]).2.2 = false := by
  have h := setLUT_write_addresses regsZero [(1, 2), (3, 4)] (by decide)
  exact ⟨by rw [h.1]; decide, h.2⟩

/-- Claim C5: when fewer than 8 pairs are supplied the setter leaves the
temperature and speed registers of every unsupplied slot i (from
value.length up to 7) at their prior values. -/
theorem setLUT_preserves_unwritten_slots (regs : Regs) (value : List (Nat × Nat))
    (h : value.length < 8) (i : Nat) (h1 : value.length ≤ i) (h2 : i < 8) :
    (setFanControlLookupTable regs value).1 (0x50 + 2 * i) = regs (0x50 + 2 * i) ∧
    (setFanControlLookupTable regs value).1 (0x51 + 2 * i) = regs (0x51 + 2 * i) := by
  constructor <;>
  · apply setLUTLoop_frame
    intro j hj
    rw [List.mem_range] at hj
    omega

/-- Witness for setLUT_preserves_unwritten_slots: after supplying the
single pair (5, 6), slot 3's registers 0x56 and 0x57 are unchanged. -/
theorem setLUT_preserves_unwritten_slots_witness :
    (setFanControlLookupTable regsZero [(5, 6)]).1 (0x50 + 2 * 3) = regsZero (0x50 + 2 * 3) ∧
    (setFanControlLookupTable regsZero [(5, 6)]).1 (0x51 + 2 * 3) = regsZero (0x51 + 2 * 3) :=
  setLUT_preserves_unwritten_slots regsZero [(5, 6)] (by decide) 3 (by decide) (by decide)

/-- Claim C9: for more than 8 supplied pairs the setter raises
IndexError after writing the first 8 pairs: the error flag is set, the
bus trace is exactly the 16 writes of slots 0..7 in index order, and
when the error is raised the first 8 pairs are already stored in their
slot registers. -/
theorem setLUT_oversized_error (regs : Regs) (value : List (Nat × Nat))
    (h : 8 < value.length) :
    (setFanControlLookupTable regs value).2.2 = true ∧
    (setFanControlLookupTable regs value).2.1 =
      (List.range 8).flatMap (fun i =>
        [writeEvent (0x50 + 2 * i) (value.getD i (0, 0)).1,
         writeEvent (0x51 + 2 * i) (value.getD i (0, 0)).2]) ∧
    (∀ i, i < 8 →
      (setFanControlLookupTable regs value).1 (0x50 + 2 * i) = (value.getD i (0, 0)).1 ∧
      (setFanControlLookupTable regs value).1 (0x51 + 2 * i) = (value.getD i (0, 0)).2) := by
  have hok := setLUTLoop_ok value 0 8 regs (by omega) (by omega)
  have hlen : value.length = (value.length - 8) + 8 := by omega
  have hsplit : List.range' 0 value.length =
      List.range' 0 8 ++ List.range' 8 (value.length - 8) := by
    conv_lhs => rw [hlen]
    rw [← List.range'_append 0 8 (value.length - 8) 1]
  have hjs : List.range' 8 (value.length - 8) = 8 :: List.range' 9 (value.length - 9) := by
    have h9 : value.length - 8 = (value.length - 9) + 1 := by omega
    rw [h9, List.range'_succ]
  have hT8 : REG_LOOKUP_T[(8 : Nat)]? = none := by decide
  have hv8 : value[(8 : Nat)]? = some (value.getD 8 (0, 0)) :=
    get?_eq_some_getD value 8 (0, 0) (by omega)
  have hstep : ∀ rg : Regs,
      setLUTLoop value rg (8 :: List.range' 9 (value.length - 9)) = (rg, [], true) := by
    intro rg
    simp only [setLUTLoop, hv8, hT8]
  have hmain : setFanControlLookupTable regs value =
      ((setLUTLoop value regs (List.range' 0 8)).1,
       (setLUTLoop value regs (List.range' 0 8)).2.1 ++ [], true) := by
    rw [setFanControlLookupTable, List.range_eq_range', hsplit,
      setLUTLoop_append value _ _ regs hok.2, hjs, hstep]
  refine ⟨by rw [hmain], ?_, ?_⟩
  · rw [hmain, List.range_eq_range']
    simpa using hok.1
  · intro i hi
    rw [hmain]
    exact setLUTLoop_written value 0 8 regs (by omega) (by omega) i (by omega) (by omega)

/-- Witness for setLUT_oversized_error with 9 identical pairs (1, 2):
the setter reports the index error. -/
theorem setLUT_oversized_error_witness :
    (setFanControlLookupTable regsZero (List.replicate 9 (1, 2))).2.2 = true :=
  (setLUT_oversized_error regsZero (List.replicate 9 (1, 2)) (by decide)).1

/-- Claim C10: the setter neither validates nor masks components: a pair
whose temperature exceeds MAX_LUT_TEMP = 0x7F or whose speed exceeds
MAX_LUT_SPEED = 0x3F has its raw components carried unchanged in the bus
writes, and the slot registers end up holding exactly those raw
values. -/
theorem setLUT_no_masking (regs : Regs) (value : List (Nat × Nat))
    (h8 : value.length ≤ 8) (i : Nat) (hi : i < value.length)
    (hout : MAX_LUT_TEMP < (value.getD i (0, 0)).1 ∨ MAX_LUT_SPEED < (value.getD i (0, 0)).2) :
    writeEvent (0x50 + 2 * i) (value.getD i (0, 0)).1 ∈
      (setFanControlLookupTable regs value).2.1 ∧
    writeEvent (0x51 + 2 * i) (value.getD i (0, 0)).2 ∈
      (setFanControlLookupTable regs value).2.1 ∧
    (setFanControlLookupTable regs value).1 (0x50 + 2 * i) = (value.getD i (0, 0)).1 ∧
    (setFanControlLookupTable regs value).1 (0x51 + 2 * i) = (value.getD i (0, 0)).2 := by
  have htrace := (setLUT_write_addresses regs value h8).1
  have hw := setLUTLoop_written value 0 value.length regs (by omega) (by omega) i
    (by omega) (by omega)
  refine ⟨?_, ?_, ?_, ?_⟩
  · rw [htrace]
    exact List.mem_flatMap.mpr ⟨i, List.mem_range.mpr hi, by simp⟩
  · rw [htrace]
    exact List.mem_flatMap.mpr ⟨i, List.mem_range.mpr hi, by simp⟩
  · rw [setFanControlLookupTable, List.range_eq_range']
    exact hw.1
  · rw [setFanControlLookupTable, List.range_eq_range']
    exact hw.2

/-- Witness for setLUT_no_masking with the out-of-range pair (200, 100):
unchanged values written to and stored at registers 0x50 and 0x51. -/
theorem setLUT_no_masking_witness :
    writeEvent 0x50 200 ∈ (setFanControlLookupTable regsZero [(200, 100)]).2.1 ∧
    writeEvent 0x51 100 ∈ (setFanControlLookupTable regsZero [(200, 100)]).2.1 ∧
    (setFanControlLookupTable regsZero [(200, 100)]).1 0x50 = 200 ∧
    (setFanControlLookupTable regsZero [(200, 100)]).1 0x51 = 100 :=
  setLUT_no_masking regsZero [(200, 100)] (by decide) 0 (by decide) (Or.inl (by decide))

/-- Every event of the setter loop's trace addresses device 0x4C. -/
theorem setLUTLoop_devAddr (value : List (Nat × Nat)) (is : List Nat) (regs : Regs) :
    ∀ e ∈ (setLUTLoop value regs is).2.1, e.devAddr = 0x4C := by
  induction is generalizing regs with
  | nil => intro e he; cases he
  | cons i rest ih =>
    intro e he
    cases hv : value[i]? with
    | none => simp [setLUTLoop, hv] at he
    | some p =>
      cases ht : REG_LOOKUP_T[i]? with
      | none => simp [setLUTLoop, hv, ht] at he
      | some tA =>
        cases hs : REG_LOOKUP_S[i]? with
        | none =>
          simp [setLUTLoop, hv, ht, hs, _write] at he
          subst he
          rfl
        | some sA =>
          simp [setLUTLoop, hv, ht, hs, _write] at he
          rcases he with he | he | he
          · subst he; rfl
          · subst he; rfl
          · exact ih _ e he

/-- Claim C8: every bus transaction issued by any operation of the
device handle carries the fixed device address I2CADDRESS = 0x4C. -/
theorem all_ops_use_device_address (regs : Regs) (v : Bool) (value : List (Nat × Nat)) :
    (∀ e ∈ (internalTemp regs).2, e.devAddr = 0x4C) ∧
    (∀ e ∈ (dacMode regs).2, e.devAddr = 0x4C) ∧
    (∀ e ∈ (setDacMode regs v).2, e.devAddr = 0x4C) ∧
    (∀ e ∈ (fanControlLookupTable regs).2, e.devAddr = 0x4C) ∧
    (∀ e ∈ (setFanControlLookupTable regs value).2.1, e.devAddr = 0x4C) := by
  refine ⟨?_, ?_, ?_, ?_, ?_⟩
  · intro e he
    simp [internalTemp, _read] at he
    subst he
    rfl
  · intro e he
    simp [dacMode, _read] at he
    subst he
    rfl
  · intro e he
    cases v <;> simp [setDacMode, _writeBool, _read, _write] at he <;>
      rcases he with he | he <;> subst he <;> rfl
  · intro e he
    simp only [fanControlLookupTable] at he
    rcases List.mem_flatMap.mp he with ⟨i, _, hm⟩
    simp at hm
    subst hm
    rfl
  · exact setLUTLoop_devAddr value (List.range value.length) regs

/-- Witness for all_ops_use_device_address: the single read issued by
internalTemp on the all-zero register file addresses device 0x4C. -/
theorem all_ops_use_device_address_witness :
    (readEvent 0 0).devAddr = 0x4C :=
  (all_ops_use_device_address regsZero true []).1 (readEvent 0 0) (by decide)

end Emc2101
